import Mathlib

/-!
Verification development for the PdfToMarkdown repository.

The repository wraps an external PDF-to-Markdown engine behind a converter
class (`src/PdfToMarkdownConverter.py`) and a Flask web app with a JSON-backed
conversion history (`src/app.py`).  This file gives a shallow embedding of the
configuration-resolution, path-derivation and history-tracking logic and
proves the specified properties about it.

Conventions of the embedding:
* Python dicts are association lists with unique keys; `dictGet` / `dictSet`
  mirror `d[k]` / `d[k] = v`, `dictUpdate` mirrors `d.update(o)`.
* The file system is explicit state (`FSState`, and the three-valued
  `ConfigFile` / `HistFile` views of a single file's content).
* Exceptions become `Except` values.
-/

/-! ## os.path helpers (as used by the sources) -/

/-- Whether `p` is a prefix of `s` (computable form of `String.startsWith`). -/
def strStartsWith (s p : String) : Bool :=
  p.data.isPrefixOf s.data

/-- Whether `p` is a suffix of `s` (computable form of `String.endsWith`). -/
def strEndsWith (s p : String) : Bool :=
  p.data.reverse.isPrefixOf s.data.reverse

/-- Embeds `os.path.join(a, b)` for POSIX paths as used here: an absolute
second component replaces the first, otherwise the components are joined with
a single separator. -/
def pathJoin (a b : String) : String :=
  if strStartsWith b "/" then b
  else if a = "" then b
  else if strEndsWith a "/" then a ++ b
  else a ++ "/" ++ b

/-- Embeds `os.path.basename(p)`: the part of `p` after the final slash. -/
def basename (p : String) : String :=
  String.mk ((p.data.reverse.takeWhile (fun c => c ≠ '/')).reverse)

/-- Index of the last dot of `cs`, if any. -/
def lastDotIdx (cs : List Char) : Option Nat :=
  (List.range cs.length).foldl
    (fun acc i => if cs.getD i ' ' = '.' then some i else acc) none

/-- Embeds `os.path.splitext(s)[0]` for a bare file name `s` (no slashes),
which is how the sources use it (`splitext` is always applied to a
`basename`): the name is cut at its last dot, unless that dot is the first
character or everything before it is dots. -/
def splitextStem (s : String) : String :=
  let cs := s.toList
  match lastDotIdx cs with
  | none => s
  | some i =>
    if i = 0 then s
    else if (cs.take i).all (fun c => c = '.') then s
    else String.mk (cs.take i)

/-! ## Python dicts over configuration values -/

/-- A JSON / Python value as it appears in the configuration dicts of the
sources: strings and booleans. -/
inductive ConfigVal where
  | s (v : String)
  | b (v : Bool)
deriving DecidableEq

/-- A Python dict with string keys, as an insertion-ordered association list
with unique keys. -/
abbrev ConfDict := List (String × ConfigVal)

/-- Embeds Python dict lookup `d[k]` / `d.get(k)`. -/
def dictGet : ConfDict → String → Option ConfigVal
  | [], _ => none
  | (k0, v) :: rest, k => if k0 = k then some v else dictGet rest k

/-- Embeds Python dict assignment `d[k] = v`: replaces the value of an
existing key in place, otherwise appends the new pair (insertion order). -/
def dictSet : ConfDict → String → ConfigVal → ConfDict
  | [], k, v => [(k, v)]
  | (k0, v0) :: rest, k, v =>
    if k0 = k then (k, v) :: rest else (k0, v0) :: dictSet rest k v

/-- Embeds Python `base.update(o)`: assigns every pair of `o`, in order,
into `base`. -/
def dictUpdate : ConfDict → ConfDict → ConfDict
  | base, [] => base
  | base, kv :: rest => dictUpdate (dictSet base kv.1 kv.2) rest

/-! ## PdfToMarkdownConverter._load_config -/

/-- The `default_config` literal of `PdfToMarkdownConverter._load_config`
(and `create_default_config`). -/
def default_config : ConfDict :=
  [("output_format", .s "markdown"),
   ("use_llm", .b true),
   ("llm_service", .s "marker.services.ollama.OllamaService"),
   ("ollama_base_url", .s "http://localhost:11434"),
   ("ollama_model", .s "qwen2.5:14b")]

/-- What reading and JSON-parsing a configuration file at a given path can
yield: the file is missing, or it exists but `json.load` raises
`JSONDecodeError` (with message `err`), or it parses to the dict `d`. -/
inductive ConfigFile where
  | missing
  | invalid (err : String)
  | parsed (d : ConfDict)

/-- The exceptions `_load_config` can raise. -/
inductive LoadErr where
  | fileNotFound (msg : String)
  | jsonDecodeError (msg : String)
  | typeError (msg : String)
deriving DecidableEq

/-- The message of the `TypeError` that Python raises when
`json.JSONDecodeError` is constructed with a single argument: its
`__init__(self, msg, doc, pos)` requires three.  Note the message is a
constant of the runtime and mentions neither the config path nor the
original parse failure. -/
def jsonDecodeCtorTypeErrorMsg : String :=
  "JSONDecodeError.__init__ missing 2 required positional arguments: doc and pos"

/-- Embeds `PdfToMarkdownConverter._load_config` (src/PdfToMarkdownConverter.py
lines 51-92).  `readFile` stands for reading-and-JSON-parsing the file at a
path.  With no path it returns the defaults; a missing file raises
`FileNotFoundError`; a parsed file is shallow-merged over a copy of the
defaults via `dict.update`.  In the `except json.JSONDecodeError` branch the
source executes `raise json.JSONDecodeError(f"...")`: that constructor call
itself raises a `TypeError` (see `jsonDecodeCtorTypeErrorMsg`), so that is
the exception the caller observes — not a `JSONDecodeError` carrying the
path. -/
def load_config (config_path : Option String) (readFile : String → ConfigFile) :
    Except LoadErr ConfDict :=
  match config_path with
  | none => .ok default_config
  | some p =>
    match readFile p with
    | .missing => .error (.fileNotFound ("Configuration file not found: " ++ p))
    | .invalid _ => .error (.typeError jsonDecodeCtorTypeErrorMsg)
    | .parsed loaded => .ok (dictUpdate default_config loaded)

/-! ## Dict merge lemmas -/

theorem dictGet_dictSet (d : ConfDict) (k : String) (v : ConfigVal) (k' : String) :
    dictGet (dictSet d k v) k' = if k = k' then some v else dictGet d k' := by
  induction d with
  | nil => simp [dictSet, dictGet]
  | cons kv rest ih =>
    obtain ⟨k0, v0⟩ := kv
    by_cases h0 : k0 = k
    · subst h0
      by_cases h1 : k0 = k'
      · subst h1; simp [dictSet, dictGet]
      · simp [dictSet, dictGet, h1]
    · by_cases h1 : k0 = k'
      · subst h1
        have hne : ¬ k = k0 := fun h => h0 h.symm
        simp [dictSet, dictGet, h0, hne]
      · simp [dictSet, dictGet, h0, h1, ih]

theorem dictGet_some_mem_keys {d : ConfDict} {k : String} {v : ConfigVal}
    (h : dictGet d k = some v) : k ∈ d.map Prod.fst := by
  induction d with
  | nil => simp [dictGet] at h
  | cons kv rest ih =>
    obtain ⟨k0, v0⟩ := kv
    simp only [dictGet] at h
    by_cases h0 : k0 = k
    · simp [h0]
    · simp only [if_neg h0] at h
      simp [ih h]

theorem dictGet_dictUpdate (o : ConfDict) :
    ∀ base : ConfDict, (o.map Prod.fst).Nodup →
      ∀ k, dictGet (dictUpdate base o) k =
        (dictGet o k).orElse (fun _ => dictGet base k) := by
  induction o with
  | nil => intro base _ k; simp [dictUpdate, dictGet]
  | cons kv rest ih =>
    intro base hnd k
    obtain ⟨k0, v0⟩ := kv
    simp only [List.map_cons, List.nodup_cons] at hnd
    obtain ⟨hk0, hrest⟩ := hnd
    simp only [dictUpdate]
    rw [ih (dictSet base k0 v0) hrest k]
    cases hfind : dictGet rest k with
    | some v =>
      have hmem : k ∈ rest.map Prod.fst := dictGet_some_mem_keys hfind
      have hne : k0 ≠ k := fun h => hk0 (h ▸ hmem)
      simp [dictGet, hfind, if_neg hne]
    | none =>
      rw [dictGet_dictSet]
      by_cases h0 : k0 = k
      · simp [dictGet, h0, hfind]
      · simp [dictGet, h0, hfind]

/-! ## File-system state and PdfToMarkdownConverter.convert_pdf -/

/-- The parts of the file system that `convert_pdf` touches: the set of
existing regular files, the set of existing directories, and the current
working directory. -/
structure FSState where
  files : List String
  dirs : List String
  cwd : String
deriving DecidableEq

/-- Embeds `os.path.exists(p)`. -/
def pathExists (fs : FSState) (p : String) : Bool :=
  fs.files.contains p || fs.dirs.contains p

/-- Embeds `os.makedirs(p, exist_ok=True)`: creates the directory if it is
not already present, and is a no-op otherwise. -/
def makedirs (fs : FSState) (p : String) : FSState :=
  if fs.dirs.contains p then fs else { fs with dirs := p :: fs.dirs }

/-- Modelled from the spec: `marker.output.save_output(rendered, dir, fname)`
is external library code not present under src/.  Per the spec it writes the
primary converted document, named after the base name with the markdown
extension, into the output directory (side artifacts such as images are not
modelled, the claims only concern the primary document). -/
def save_output (fs : FSState) (dir fname : String) : FSState :=
  { fs with files := pathJoin dir (fname ++ ".md") :: fs.files }

/-- The exception `convert_pdf` raises on a missing input. -/
inductive ConvErr where
  | fileNotFound (path : String)
deriving DecidableEq

/-- Embeds lines 129-132 of src/PdfToMarkdownConverter.py: the output root
falls back to the current working directory when it is `None` or does not
exist. -/
def resolveOutputRoot (output_path : Option String) (fs : FSState) : String :=
  match output_path with
  | none => fs.cwd
  | some p => if pathExists fs p then p else fs.cwd

/-- Embeds `PdfToMarkdownConverter.convert_pdf` (src/PdfToMarkdownConverter.py
lines 108-152).  The external engine call `self.converter(pdf_path)` produces
an opaque rendered value consumed only by `save_output`; the claims under
verification concern the validation and path logic, so the engine call is
modelled as succeeding (its failures would propagate unchanged).  The
function returns the result together with the file system after the call,
so that side effects (and their absence on the error path) are visible. -/
def convert_pdf (pdf_path : String) (output_path : Option String) (fs : FSState) :
    Except ConvErr String × FSState :=
  if pathExists fs pdf_path = false then
    (.error (.fileNotFound ("PDF file not found: " ++ pdf_path)), fs)
  else
    let out_path := resolveOutputRoot output_path fs
    let pdf_name := basename pdf_path
    let fname := splitextStem pdf_name
    let final_output_path := pathJoin out_path fname
    let fs1 := makedirs fs final_output_path
    let fs2 := save_output fs1 final_output_path fname
    (.ok final_output_path, fs2)

/-! ## A small heap, for the aliasing behaviour of get_config -/

/-- A heap of Python dict objects: the address of a dict is its index in
`store`.  This makes the difference between returning `self.config` and
returning `self.config.copy()` expressible. -/
structure PyHeap where
  store : List ConfDict
deriving DecidableEq

/-- A `PdfToMarkdownConverter` instance: `self.config` is a reference to a
dict on the heap. -/
structure ConverterObj where
  configAddr : Nat
deriving DecidableEq

/-- Dereference a dict address. -/
def heapGet (h : PyHeap) (a : Nat) : ConfDict :=
  h.store.getD a []

/-- Overwrite the dict at an address. -/
def heapSet (h : PyHeap) (a : Nat) (d : ConfDict) : PyHeap :=
  ⟨h.store.set a d⟩

/-- Allocate a fresh dict object, returning its address. -/
def heapAlloc (h : PyHeap) (d : ConfDict) : PyHeap × Nat :=
  (⟨h.store ++ [d]⟩, h.store.length)

/-- Embeds `PdfToMarkdownConverter.get_config` (src/PdfToMarkdownConverter.py
lines 154-161): `return self.config.copy()` allocates a NEW dict object with
the same contents and returns a reference to it. -/
def get_config (h : PyHeap) (c : ConverterObj) : PyHeap × Nat :=
  heapAlloc h (heapGet h c.configAddr)

/-- A caller mutating a dict it holds a reference to: `d[k] = v` through the
heap. -/
def dictSetAt (h : PyHeap) (a : Nat) (k : String) (v : ConfigVal) : PyHeap :=
  heapSet h a (dictSet (heapGet h a) k v)

/-! ## ConversionHistory (src/app.py) -/

/-- One history record, as built by `ConversionHistory.add_conversion`
(src/app.py lines 102-109). -/
structure ConversionRecord where
  id : String
  filename : String
  pdf_path : String
  output_path : String
  timestamp : String
  has_preview : Bool
deriving DecidableEq

/-- The JSON value stored in the history file, as seen by `json.load` /
`json.dump`: either a list of history records (the expected structure), or
some other syntactically valid JSON document, kept abstract as its source
text `doc` (for example `jother "42"` stands for a file containing `42`). -/
inductive HistJson where
  | jlist (records : List ConversionRecord)
  | jother (doc : String)
deriving DecidableEq

/-- The state of the persisted history file: absent, present but not
decodable as JSON (so `json.load` raises `JSONDecodeError`), or present with
JSON content `j`. -/
inductive HistFile where
  | absent
  | corrupt
  | valid (j : HistJson)
deriving DecidableEq

/-- Exceptions the history operations can raise. -/
inductive PyErr where
  | attributeError (msg : String)
  | typeError (msg : String)
deriving DecidableEq

/-- `Config.MAX_RECENT_CONVERSIONS` (src/app.py line 43). -/
def MAX_RECENT_CONVERSIONS : Nat := 10

namespace ConversionHistory

/-- Embeds `ConversionHistory.load` (src/app.py lines 76-85): a missing file
yields `[]`; a file whose content raises `json.JSONDecodeError` yields `[]`;
otherwise whatever `json.load` parsed is returned as is — including valid
JSON that is not a record list. -/
def load : HistFile → HistJson
  | .absent => .jlist []
  | .corrupt => .jlist []
  | .valid j => j

/-- Embeds `ConversionHistory.save` (src/app.py lines 87-91): the file is
rewritten whole with the given value. -/
def save (history : HistJson) : HistFile :=
  .valid history

/-- The `new_conversion` record literal of `add_conversion` (src/app.py lines
102-109), with the externally generated inputs (`uuid.uuid4()` and
`datetime.now().isoformat()`) passed in as `conversion_id` / `timestamp`.
`has_preview` is the literal `True`; no file-system state is consulted. -/
def new_conversion (conversion_id timestamp pdf_path output_path : String) :
    ConversionRecord :=
  { id := conversion_id
    filename := basename pdf_path
    pdf_path := pdf_path
    output_path := output_path
    timestamp := timestamp
    has_preview := true }

/-- Embeds `ConversionHistory.add_conversion` (src/app.py lines 93-118):
load, insert the new record at index 0, truncate to the cap, save, return
the new id.  On a history file holding valid JSON that is not a list,
`history.insert(0, ...)` raises `AttributeError` (no non-list JSON value has
an `insert` method), modelled by the error branch. -/
def add_conversion (conversion_id timestamp pdf_path output_path : String)
    (st : HistFile) : Except PyErr (String × HistFile) :=
  match load st with
  | .jlist history =>
    let newConv := new_conversion conversion_id timestamp pdf_path output_path
    let history2 := (newConv :: history).take MAX_RECENT_CONVERSIONS
    .ok (conversion_id, save (.jlist history2))
  | .jother _ => .error (.attributeError "object has no attribute insert")

/-- Embeds `ConversionHistory.get_conversion` (src/app.py lines 126-133):
load and scan linearly for the first record with the given id, returning
`none` when there is no match.  On a history file holding valid JSON that is
not a record list the scan subscripts a non-dict element (or iterates a
non-iterable) and Python raises `TypeError`; no claim exercises that state,
and it is modelled by the error branch. -/
def get_conversion (conversion_id : String) (st : HistFile) :
    Except PyErr (Option ConversionRecord) :=
  match load st with
  | .jlist history => .ok (history.find? (fun c => c.id = conversion_id))
  | .jother _ => .error (.typeError "history element is not subscriptable")

end ConversionHistory

/-- The inputs of one `add_conversion` call: the generated id and timestamp
and the two path arguments. -/
structure AddIn where
  conversion_id : String
  timestamp : String
  pdf_path : String
  output_path : String
deriving DecidableEq

/-- The record that `add_conversion` builds from one input. -/
def recordOf (a : AddIn) : ConversionRecord :=
  ConversionHistory.new_conversion a.conversion_id a.timestamp a.pdf_path a.output_path

/-- A sequence of `add_conversion` calls, performed in list order. -/
def addMany : List AddIn → HistFile → Except PyErr HistFile
  | [], st => .ok st
  | a :: rest, st =>
    match ConversionHistory.add_conversion a.conversion_id a.timestamp
        a.pdf_path a.output_path st with
    | .ok pr => addMany rest pr.2
    | .error e => .error e

/-! ## Shared helper lemmas -/

theorem take_append_take_eq {α : Type} (X Y : List α) (n : Nat) :
    (X ++ Y.take n).take n = (X ++ Y).take n := by
  rw [List.take_append_eq_append_take, List.take_append_eq_append_take,
    List.take_take, Nat.min_eq_left (Nat.sub_le n X.length)]

theorem makedirs_contains (fs : FSState) (p : String) :
    (makedirs fs p).dirs.contains p = true := by
  by_cases hc : fs.dirs.contains p = true <;> simp_all [makedirs]

theorem makedirs_idem (fs : FSState) (p : String) :
    makedirs (makedirs fs p) p = makedirs fs p := by
  by_cases hc : fs.dirs.contains p = true <;> simp_all [makedirs]

/-- Running any number of `add_conversion` calls from a state holding a
record list `l` of length at most the cap succeeds and leaves the log
holding the new records (newest first) in front of `l`, truncated to the
cap. -/
theorem addMany_jlist (ins : List AddIn) :
    ∀ (st : HistFile) (l : List ConversionRecord),
      ConversionHistory.load st = .jlist l →
      l.length ≤ MAX_RECENT_CONVERSIONS →
      ∃ st', addMany ins st = .ok st' ∧
        ConversionHistory.load st' =
          .jlist (((ins.map recordOf).reverse ++ l).take MAX_RECENT_CONVERSIONS) := by
  induction ins with
  | nil =>
    intro st l hl hlen
    refine ⟨st, rfl, ?_⟩
    rw [hl]
    simp [List.take_of_length_le hlen]
  | cons a rest ih =>
    intro st l hl hlen
    have hadd : ConversionHistory.add_conversion a.conversion_id a.timestamp a.pdf_path
        a.output_path st = .ok (a.conversion_id,
          ConversionHistory.save (.jlist ((recordOf a :: l).take MAX_RECENT_CONVERSIONS))) := by
      simp [ConversionHistory.add_conversion, hl, recordOf]
    obtain ⟨st', hst', hload⟩ := ih
      (ConversionHistory.save (.jlist ((recordOf a :: l).take MAX_RECENT_CONVERSIONS)))
      ((recordOf a :: l).take MAX_RECENT_CONVERSIONS) rfl (List.length_take_le _ _)
    refine ⟨st', ?_, ?_⟩
    · simp [addMany, hadd, hst']
    · rw [hload]
      rw [take_append_take_eq]
      simp [List.append_assoc]

/-! ## The claims -/

/-- C3: for every source path that does not reference an existing file,
`convert_pdf` fails with the `FileNotFoundError` naming the path, before any
output directory is created: the file system it returns is the one it was
given, unchanged. -/
theorem convert_pdf_missing_input_fails_clean (pdf_path : String)
    (output_path : Option String) (fs : FSState)
    (h : pathExists fs pdf_path = false) :
    convert_pdf pdf_path output_path fs =
      (.error (.fileNotFound ("PDF file not found: " ++ pdf_path)), fs) ∧
    ((convert_pdf pdf_path output_path fs).2).dirs = fs.dirs := by
  simp [convert_pdf, h]

/-- Witness for C3 at a concrete missing input. -/
theorem convert_pdf_missing_input_fails_clean_witness :
    pathExists ⟨[], [], "/srv"⟩ "/in/missing.pdf" = false ∧
    (convert_pdf "/in/missing.pdf" (some "/out") ⟨[], [], "/srv"⟩ =
        (.error (.fileNotFound ("PDF file not found: " ++ "/in/missing.pdf")),
          (⟨[], [], "/srv"⟩ : FSState)) ∧
      ((convert_pdf "/in/missing.pdf" (some "/out") ⟨[], [], "/srv"⟩).2).dirs =
        (⟨[], [], "/srv"⟩ : FSState).dirs) :=
  ⟨by decide,
    convert_pdf_missing_input_fails_clean "/in/missing.pdf" (some "/out")
      ⟨[], [], "/srv"⟩ (by decide)⟩

/-- C4 (code bug): on a config file that exists but is not valid JSON the
source intends to raise `json.JSONDecodeError` identifying the path and the
original failure, but builds the exception with one argument where
`JSONDecodeError.__init__(msg, doc, pos)` needs three, so the call raises a
`TypeError` whose constant message names neither; resolution fails, but not
with the documented ParseError.  Evaluated at a concrete failing input. -/
theorem load_config_invalid_json_raises_typeError :
    load_config (some "config.json")
        (fun _ => ConfigFile.invalid "Expecting value: line 1 column 1") =
      .error (.typeError jsonDecodeCtorTypeErrorMsg) ∧
    (∃ m : String, load_config (some "config.json")
        (fun _ => ConfigFile.invalid "Expecting value: line 1 column 1") =
      .error (.jsonDecodeError m)) = False := by
  refine ⟨rfl, eq_false ?_⟩
  rintro ⟨m, hm⟩
  simp [load_config] at hm

/-- C5 counterexample: a persisted history file holding `42` — syntactically
valid JSON that is not the expected record-list structure — is returned by
`load` as is, not replaced by an empty log as the claim states. -/
theorem load_nonlist_json_counterexample :
    ConversionHistory.load (HistFile.valid (HistJson.jother "42")) =
      HistJson.jother "42" ∧
    (ConversionHistory.load (HistFile.valid (HistJson.jother "42")) =
      HistJson.jlist []) = False :=
  ⟨rfl, eq_false (by decide)⟩

/-- C5 (amended): `load` never raises; a missing file and content on which
JSON decoding fails both yield the empty log, while syntactically valid JSON
of an unexpected shape is returned unchanged rather than replaced by an
empty log. -/
theorem load_never_fails :
    ConversionHistory.load HistFile.absent = HistJson.jlist [] ∧
    ConversionHistory.load HistFile.corrupt = HistJson.jlist [] ∧
    ∀ j : HistJson, ConversionHistory.load (HistFile.valid j) = j :=
  ⟨rfl, rfl, fun _ => rfl⟩

/-- C7: saving a freshly loaded history log and reloading yields exactly the
loaded value, for every persisted state. -/
theorem save_load_roundtrip (st : HistFile) :
    ConversionHistory.load (ConversionHistory.save (ConversionHistory.load st)) =
      ConversionHistory.load st := by
  cases st <;> rfl

/-- C8: `get_conversion` on an identifier that no record of the loaded log
carries returns an explicit not-found result (`none`) and raises nothing. -/
theorem get_conversion_missing_id (conversion_id : String) (st : HistFile)
    (l : List ConversionRecord)
    (h1 : ConversionHistory.load st = .jlist l)
    (h2 : ∀ r ∈ l, r.id ≠ conversion_id) :
    ConversionHistory.get_conversion conversion_id st = .ok none := by
  have hf : l.find? (fun c => c.id = conversion_id) = none := by
    rw [List.find?_eq_none]
    intro x hx
    simp [h2 x hx]
  simp [ConversionHistory.get_conversion, h1, hf]

/-- A sample record for concrete history states. -/
def rec0 : ConversionRecord :=
  { id := "id-1"
    filename := "a.pdf"
    pdf_path := "/uploads/a.pdf"
    output_path := "/output/a"
    timestamp := "2025-01-01T00:00:00"
    has_preview := true }

/-- Witness for C8 at a concrete log and missing identifier. -/
theorem get_conversion_missing_id_witness :
    ConversionHistory.load (HistFile.valid (HistJson.jlist [rec0])) =
      HistJson.jlist [rec0] ∧
    (∀ r ∈ [rec0], r.id ≠ "no-such-id") ∧
    ConversionHistory.get_conversion "no-such-id"
      (HistFile.valid (HistJson.jlist [rec0])) = .ok none :=
  ⟨rfl, by decide,
    get_conversion_missing_id "no-such-id" (HistFile.valid (HistJson.jlist [rec0]))
      [rec0] rfl (by decide)⟩

/-- C9: every record `add_conversion` creates carries `has_preview = true`
unconditionally — the record literal sets it to `True` and the function
consults no file-system state (its signature takes none), so the flag is
independent of whether a preview artifact exists at the output path. -/
theorem add_conversion_sets_has_preview
    (conversion_id timestamp pdf_path output_path : String) (st : HistFile)
    (pr : String × HistFile)
    (h : ConversionHistory.add_conversion conversion_id timestamp pdf_path
      output_path st = .ok pr) :
    ∃ rest, ConversionHistory.load pr.2 =
        .jlist (ConversionHistory.new_conversion conversion_id timestamp pdf_path
          output_path :: rest) ∧
      (ConversionHistory.new_conversion conversion_id timestamp pdf_path
        output_path).has_preview = true := by
  cases hl : ConversionHistory.load st with
  | jlist l =>
    simp only [ConversionHistory.add_conversion, hl] at h
    cases h
    exact ⟨l.take 9, rfl, rfl⟩
  | jother d =>
    simp [ConversionHistory.add_conversion, hl] at h

/-- Witness for C9: one concrete `add_conversion` from an absent file. -/
theorem add_conversion_sets_has_preview_witness :
    ConversionHistory.add_conversion "id-9" "2025-01-02T00:00:00" "/uploads/b.pdf"
        "/output/b" HistFile.absent =
      .ok ("id-9", ConversionHistory.save (HistJson.jlist
        [ConversionHistory.new_conversion "id-9" "2025-01-02T00:00:00"
          "/uploads/b.pdf" "/output/b"])) ∧
    ∃ rest, ConversionHistory.load (ConversionHistory.save (HistJson.jlist
        [ConversionHistory.new_conversion "id-9" "2025-01-02T00:00:00"
          "/uploads/b.pdf" "/output/b"])) =
        .jlist (ConversionHistory.new_conversion "id-9" "2025-01-02T00:00:00"
          "/uploads/b.pdf" "/output/b" :: rest) ∧
      (ConversionHistory.new_conversion "id-9" "2025-01-02T00:00:00"
        "/uploads/b.pdf" "/output/b").has_preview = true :=
  ⟨rfl,
    add_conversion_sets_has_preview "id-9" "2025-01-02T00:00:00" "/uploads/b.pdf"
      "/output/b" HistFile.absent _ rfl⟩

/-- C1: from any state whose loaded log has length at most the cap, a
sequence of more than `MAX_RECENT_CONVERSIONS` `add_conversion` calls
succeeds, a subsequent `load` returns exactly the records of the 10 most
recent additions, newest first, and after every prefix of the sequence the
persisted log's length is at most the cap. -/
theorem history_add_cap_and_ordering (ins : List AddIn) (st : HistFile)
    (l : List ConversionRecord)
    (h1 : ConversionHistory.load st = .jlist l)
    (h2 : l.length ≤ MAX_RECENT_CONVERSIONS)
    (h3 : MAX_RECENT_CONVERSIONS < ins.length) :
    ∃ st', addMany ins st = .ok st' ∧
      ConversionHistory.load st' =
        .jlist ((ins.reverse.take MAX_RECENT_CONVERSIONS).map recordOf) ∧
      ((ins.reverse.take MAX_RECENT_CONVERSIONS).map recordOf).length =
        MAX_RECENT_CONVERSIONS ∧
      ∀ k, k ≤ ins.length →
        ∃ stk lk, addMany (ins.take k) st = .ok stk ∧
          ConversionHistory.load stk = .jlist lk ∧
          lk.length ≤ MAX_RECENT_CONVERSIONS := by
  obtain ⟨st', hst', hload⟩ := addMany_jlist ins st l h1 h2
  have hlen_rev : MAX_RECENT_CONVERSIONS ≤ ((ins.map recordOf).reverse).length := by
    simp
    omega
  refine ⟨st', hst', ?_, ?_, ?_⟩
  · rw [hload]
    congr 1
    rw [List.take_append_of_le_length hlen_rev]
    simp
  · simp
    omega
  · intro k hk
    obtain ⟨stk, hstk, hloadk⟩ := addMany_jlist (ins.take k) st l h1 h2
    exact ⟨stk, _, hstk, hloadk, List.length_take_le _ _⟩

/-- Eleven concrete `add_conversion` inputs, one more than the cap. -/
def ins0 : List AddIn :=
  [⟨"i01", "t01", "/u/a01.pdf", "/o"⟩,
   ⟨"i02", "t02", "/u/a02.pdf", "/o"⟩,
   ⟨"i03", "t03", "/u/a03.pdf", "/o"⟩,
   ⟨"i04", "t04", "/u/a04.pdf", "/o"⟩,
   ⟨"i05", "t05", "/u/a05.pdf", "/o"⟩,
   ⟨"i06", "t06", "/u/a06.pdf", "/o"⟩,
   ⟨"i07", "t07", "/u/a07.pdf", "/o"⟩,
   ⟨"i08", "t08", "/u/a08.pdf", "/o"⟩,
   ⟨"i09", "t09", "/u/a09.pdf", "/o"⟩,
   ⟨"i10", "t10", "/u/a10.pdf", "/o"⟩,
   ⟨"i11", "t11", "/u/a11.pdf", "/o"⟩]

/-- Witness for C1: eleven additions starting from an absent history file. -/
theorem history_add_cap_and_ordering_witness :
    ConversionHistory.load HistFile.absent = HistJson.jlist [] ∧
    ([] : List ConversionRecord).length ≤ MAX_RECENT_CONVERSIONS ∧
    MAX_RECENT_CONVERSIONS < ins0.length ∧
    (∃ st', addMany ins0 HistFile.absent = .ok st' ∧
      ConversionHistory.load st' =
        .jlist ((ins0.reverse.take MAX_RECENT_CONVERSIONS).map recordOf) ∧
      ((ins0.reverse.take MAX_RECENT_CONVERSIONS).map recordOf).length =
        MAX_RECENT_CONVERSIONS ∧
      ∀ k, k ≤ ins0.length →
        ∃ stk lk, addMany (ins0.take k) HistFile.absent = .ok stk ∧
          ConversionHistory.load stk = .jlist lk ∧
          lk.length ≤ MAX_RECENT_CONVERSIONS) :=
  ⟨rfl, by decide, by decide,
    history_add_cap_and_ordering ins0 HistFile.absent [] rfl (by decide) (by decide)⟩

/-- The override of the spec's concrete merge scenario. -/
def c2override : ConfDict := [("ollama_model", .s "llama3:8b")]

/-- The expected merge result of the concrete scenario: the defaults with
only `ollama_model` replaced. -/
def c2merged : ConfDict :=
  [("output_format", .s "markdown"),
   ("use_llm", .b true),
   ("llm_service", .s "marker.services.ollama.OllamaService"),
   ("ollama_base_url", .s "http://localhost:11434"),
   ("ollama_model", .s "llama3:8b")]

/-- C2: for every override that exists and parses, `_load_config` returns
the defaults shallow-merged with the override: looking up any key gives the
override's value when the override has the key and the default's value
otherwise, so every default key stays present and every extra override key
is preserved; in particular the defaults overridden with
`ollama_model = "llama3:8b"` give exactly the defaults with that one value
replaced. -/
theorem load_config_merges_override (p : String) (readFile : String → ConfigFile)
    (o : ConfDict) (h1 : readFile p = ConfigFile.parsed o)
    (h2 : (o.map Prod.fst).Nodup) :
    load_config (some p) readFile = .ok (dictUpdate default_config o) ∧
    (∀ k, dictGet (dictUpdate default_config o) k =
      (dictGet o k).orElse (fun _ => dictGet default_config k)) ∧
    dictUpdate default_config c2override = c2merged := by
  refine ⟨?_, dictGet_dictUpdate o default_config h2, by decide⟩
  simp [load_config, h1]

/-- Witness for C2 at the spec's concrete scenario. -/
theorem load_config_merges_override_witness :
    (fun _ : String => ConfigFile.parsed c2override) "config.json" =
      ConfigFile.parsed c2override ∧
    (c2override.map Prod.fst).Nodup ∧
    (load_config (some "config.json") (fun _ => ConfigFile.parsed c2override) =
        .ok (dictUpdate default_config c2override) ∧
      (∀ k, dictGet (dictUpdate default_config c2override) k =
        (dictGet c2override k).orElse (fun _ => dictGet default_config k)) ∧
      dictUpdate default_config c2override = c2merged) :=
  ⟨rfl, by decide,
    load_config_merges_override "config.json" (fun _ => ConfigFile.parsed c2override)
      c2override rfl (by decide)⟩

/-- C6: for every existing source file, `convert_pdf` derives its output
directory as the resolved output root (the given root when it exists, the
current working directory otherwise) joined with the source basename without
extension, creates it (idempotently: a second `makedirs` changes nothing),
and on success returns that directory with the primary converted document
`<stem>.md` inside it. -/
theorem convert_pdf_output_derivation (pdf_path : String)
    (output_path : Option String) (fs : FSState)
    (h : pathExists fs pdf_path = true) :
    ∃ fs' : FSState,
      convert_pdf pdf_path output_path fs =
        (.ok (pathJoin (resolveOutputRoot output_path fs)
          (splitextStem (basename pdf_path))), fs') ∧
      fs'.dirs.contains (pathJoin (resolveOutputRoot output_path fs)
        (splitextStem (basename pdf_path))) = true ∧
      fs'.files.contains (pathJoin (pathJoin (resolveOutputRoot output_path fs)
          (splitextStem (basename pdf_path)))
        (splitextStem (basename pdf_path) ++ ".md")) = true ∧
      makedirs (makedirs fs (pathJoin (resolveOutputRoot output_path fs)
          (splitextStem (basename pdf_path))))
        (pathJoin (resolveOutputRoot output_path fs)
          (splitextStem (basename pdf_path))) =
      makedirs fs (pathJoin (resolveOutputRoot output_path fs)
        (splitextStem (basename pdf_path))) := by
  refine ⟨save_output (makedirs fs (pathJoin (resolveOutputRoot output_path fs)
      (splitextStem (basename pdf_path))))
    (pathJoin (resolveOutputRoot output_path fs) (splitextStem (basename pdf_path)))
    (splitextStem (basename pdf_path)), ?_, ?_, ?_, makedirs_idem fs _⟩
  · simp [convert_pdf, h]
  · simpa [save_output] using makedirs_contains fs
      (pathJoin (resolveOutputRoot output_path fs) (splitextStem (basename pdf_path)))
  · simp [save_output]

/-- The file system of the C6 witness: the source file and the output root
both exist. -/
def fs0 : FSState := ⟨["/in/report.pdf"], ["/out"], "/srv"⟩

/-- Witness for C6: converting `report.pdf` with output root `/out` yields
directory `/out/report` containing `report.md`. -/
theorem convert_pdf_output_derivation_witness :
    pathExists fs0 "/in/report.pdf" = true ∧
    (∃ fs' : FSState,
      convert_pdf "/in/report.pdf" (some "/out") fs0 =
        (.ok (pathJoin (resolveOutputRoot (some "/out") fs0)
          (splitextStem (basename "/in/report.pdf"))), fs') ∧
      fs'.dirs.contains (pathJoin (resolveOutputRoot (some "/out") fs0)
        (splitextStem (basename "/in/report.pdf"))) = true ∧
      fs'.files.contains (pathJoin (pathJoin (resolveOutputRoot (some "/out") fs0)
          (splitextStem (basename "/in/report.pdf")))
        (splitextStem (basename "/in/report.pdf") ++ ".md")) = true ∧
      makedirs (makedirs fs0 (pathJoin (resolveOutputRoot (some "/out") fs0)
          (splitextStem (basename "/in/report.pdf"))))
        (pathJoin (resolveOutputRoot (some "/out") fs0)
          (splitextStem (basename "/in/report.pdf"))) =
      makedirs fs0 (pathJoin (resolveOutputRoot (some "/out") fs0)
        (splitextStem (basename "/in/report.pdf")))) ∧
    pathJoin (resolveOutputRoot (some "/out") fs0)
      (splitextStem (basename "/in/report.pdf")) = "/out/report" ∧
    splitextStem (basename "/in/report.pdf") ++ ".md" = "report.md" :=
  ⟨by decide,
    convert_pdf_output_derivation "/in/report.pdf" (some "/out") fs0 (by decide),
    by decide, by decide⟩

/-- C10: `get_config` allocates a fresh copy of the converter's
configuration dict: the returned object has the same contents, and mutating
it through its reference leaves the converter's own configuration
unchanged. -/
theorem get_config_returns_copy (h : PyHeap) (c : ConverterObj) (k : String)
    (v : ConfigVal) (hv : c.configAddr < h.store.length) :
    heapGet (get_config h c).1 (get_config h c).2 = heapGet h c.configAddr ∧
    heapGet (dictSetAt (get_config h c).1 (get_config h c).2 k v) c.configAddr =
      heapGet h c.configAddr := by
  constructor
  · simp [get_config, heapAlloc, heapGet, List.getD_eq_getElem?_getD,
      List.getElem?_concat_length]
  · have hne : h.store.length ≠ c.configAddr := by omega
    simp only [get_config, heapAlloc, dictSetAt, heapSet, heapGet,
      List.getD_eq_getElem?_getD]
    rw [List.getElem?_set_ne hne, List.getElem?_append_left hv]

/-- The heap of the C10 witness: one converter whose config is the default
configuration. -/
def heap0 : PyHeap := ⟨[default_config]⟩

/-- The converter object of the C10 witness. -/
def conv0 : ConverterObj := ⟨0⟩

/-- Witness for C10: mutating the copy returned by `get_config` (setting
`use_llm` to false) leaves the converter's configuration unchanged. -/
theorem get_config_returns_copy_witness :
    conv0.configAddr < heap0.store.length ∧
    (heapGet (get_config heap0 conv0).1 (get_config heap0 conv0).2 =
        heapGet heap0 conv0.configAddr ∧
      heapGet (dictSetAt (get_config heap0 conv0).1 (get_config heap0 conv0).2
          "use_llm" (.b false)) conv0.configAddr =
        heapGet heap0 conv0.configAddr) :=
  ⟨by decide,
    get_config_returns_copy heap0 conv0 "use_llm" (.b false) (by decide)⟩
